import Mathlib

/-!
# Verification of the Prezly analytics tracking façade

Shallow embedding of `packages/analytics-nextjs/src/hooks/useAnalytics.ts`.
The hook is modelled as an explicit state machine:

* `FacadeState` holds the mutable state owned by the hook: the pending-call
  FIFO queue (`useQueue`), the persisted deferred-identity slot
  (`useLocalStorage`), and the analytics-client reference (`useLatest` ref;
  the client's own local user id is part of this state because the consent
  effect mutates it through `user().id(null)`).
* `Ctx` holds the ambient inputs of one render: the values obtained from
  `useAnalyticsContext()` plus the module constants / globals the code reads
  (`version`, `navigator.userAgent`).
* Each tracking operation (`identify`, `alias`, `page`, `track`) is a function
  `Ctx → FacadeState → args → FacadeState × List Event`, where `Event` records
  every observable side effect (calls reaching the client, callback
  invocations, persistence writes, user-id erasure).
* A closure placed in the queue by the source captures its fully-built
  arguments and the enqueue-time `buildOptions` (hence the enqueue-time
  `consent`), while it reads `analyticsRef.current` only when it runs.  A
  `PendingCall` therefore stores exactly the captured data, and
  `execPendingCall` receives the client as a parameter at drain time.
* The two `useEffect` blocks become `drainStep` (one queued call per
  readiness/queue-change tick) and `consentEffect` (deferred-identity replay /
  capture).  An invocation of the underlying client may throw; this is
  modelled by the client's `throwsOnInvoke` flag and the `ExecResult` type, so
  that the statement order `firstInQueue(); removeFromQueue();` is embedded
  faithfully: a throw aborts the effect before the removal.
-/

namespace Analytics

/-- Modelled from the spec: `TrackingPolicy` is declared in
`packages/analytics-nextjs/src/types`, which is not part of the sources at
hand; the spec describes it as the enumeration `{DEFAULT, CONSENT_TO_IDENTIFY, …}`
governing whether `identify` requires consent before forwarding.  Only the two
named members are relevant to the façade's logic. -/
inductive TrackingPolicy where
  | DEFAULT
  | CONSENT_TO_IDENTIFY
  deriving DecidableEq, Repr

/-- The `prezly` object injected by `injectPrezlyMeta`:
`{ newsroom, story?, tracking_policy? }`. -/
structure PrezlyMeta where
  newsroom : String
  story : Option String
  tracking_policy : Option TrackingPolicy
  deriving DecidableEq, Repr

/-- A JS traits/properties object as this façade observes it: an opaque bag of
caller-supplied fields plus the one field the façade itself manipulates, the
`prezly` key (absent on caller input, overwritten by the spread
`{...traits, prezly: {...}}`). -/
structure Traits where
  fields : List (String × String)
  prezly : Option PrezlyMeta
  deriving DecidableEq, Repr

/-- The empty object `{}`, the default for omitted `traits`/`properties`. -/
def emptyTraits : Traits := { fields := [], prezly := none }

/-- Callbacks are opaque zero-argument functions; they are identified by a
token, and invoking one is an observable event. -/
abbrev Callback := Nat

/-- `DeferredIdentity` as persisted under `prezly_ajs_deferred_identity`:
`{ userId, traits? }` — the consent effect stores `{ userId: id }` with no
`traits` key, hence the option. -/
structure DeferredIdentity where
  userId : String
  traits : Option Traits
  deriving DecidableEq, Repr

/-- The third-party analytics client, as the façade sees it: every capability
may be absent and must be checked before calling (`analytics.identify && ...`).
`userId` is the client's local user id, accessed through `user().id()`.
`throwsOnInvoke` models a client whose tracking methods throw when called. -/
structure Client where
  hasIdentify : Bool
  hasAlias : Bool
  hasPage : Bool
  hasTrack : Bool
  hasUser : Bool
  userId : Option String
  throwsOnInvoke : Bool
  deriving DecidableEq, Repr

/-- The `options` object built by `buildOptions`: a library name/version stamp
(always) and, only under consent, the caller's user-agent string. -/
structure Options where
  libraryName : String
  libraryVersion : String
  userAgent : Option String
  deriving DecidableEq, Repr

/-- One fully-built invocation reaching the analytics client. -/
inductive ClientInvocation where
  | identify (userId : String) (traits : Traits) (options : Options)
      (callback : Option Callback)
  | alias (userId : String) (previousId : String) (options : Options)
  | page (category : Option String) (name : Option String) (properties : Traits)
      (options : Options) (callback : Option Callback)
  | track (event : String) (properties : Traits) (options : Options)
      (callback : Option Callback)
  deriving DecidableEq, Repr

/-- Observable side effects of the façade. -/
inductive Event where
  /-- a call reached the analytics client -/
  | client (inv : ClientInvocation)
  /-- a caller-supplied callback was invoked synchronously -/
  | callbackInvoked (cb : Callback)
  /-- `setDeferredIdentity(d)` — a persistence write -/
  | storageSet (d : DeferredIdentity)
  /-- `removeDeferredIdentity()` — a persistence delete -/
  | storageRemove
  /-- `user().id(null)` was called to erase the client's local user id -/
  | eraseUserId
  deriving DecidableEq, Repr

/-- A closure sitting in the pending-call queue.  The source closure captures
the operation's fully-built arguments and the enqueue-time `buildOptions`
(whose only non-constant input is `consent`); it reads `analyticsRef.current`
when executed, so the client is *not* part of the stored data. -/
inductive PendingCall where
  | identifyCall (userId : String) (traits : Traits) (consentAtEnqueue : Bool)
      (callback : Option Callback)
  | aliasCall (userId : String) (previousId : String) (consentAtEnqueue : Bool)
  | pageCall (category : Option String) (name : Option String) (properties : Traits)
      (consentAtEnqueue : Bool) (callback : Option Callback)
  | trackCall (event : String) (properties : Traits) (consentAtEnqueue : Bool)
      (callback : Option Callback)
  deriving DecidableEq, Repr

/-- Ambient inputs of one render of the hook: the fields of
`useAnalyticsContext()` (with `storyUuid` extracted from
`story || { uuid: undefined }`), plus the module constant `version` and the
global `navigator.userAgent`. -/
structure Ctx where
  consent : Bool
  isEnabled : Bool
  newsroomUuid : String
  storyUuid : Option String
  trackingPolicy : TrackingPolicy
  userAgent : String
  version : String
  deriving DecidableEq, Repr

/-- The mutable state owned by the hook: the `useQueue` FIFO, the
`useLocalStorage` deferred-identity slot, and the analytics client (the
`useLatest` ref target, together with the client-local user id the consent
effect mutates). -/
structure FacadeState where
  queue : List PendingCall
  deferredIdentity : Option DeferredIdentity
  analytics : Option Client
  deriving DecidableEq, Repr

/-- `buildOptions`: always stamps the library name/version; injects
`navigator.userAgent` only when consent is given. -/
def buildOptions (consent : Bool) (ua : String) (ver : String) : Options :=
  { libraryName := "@prezly/analytics-next"
    libraryVersion := ver
    userAgent := if consent then some ua else none }

/-- `injectPrezlyMeta`: `{...traits, prezly: { newsroom, ...(storyUuid && {story}),
...(trackingPolicy !== DEFAULT && {tracking_policy}) }}`.  The spread overwrites
any pre-existing `prezly` field; `storyUuid && …` is JS truthiness, so an empty
string contributes no `story` field. -/
def injectPrezlyMeta (ctx : Ctx) (traits : Traits) : Traits :=
  { traits with
      prezly := some
        { newsroom := ctx.newsroomUuid
          story :=
            match ctx.storyUuid with
            | some s => if s = "" then none else some s
            | none => none
          tracking_policy :=
            if ctx.trackingPolicy ≠ TrackingPolicy.DEFAULT then
              some ctx.trackingPolicy
            else none } }

/-- `identify(userId, traits = {}, callback?)`.  Under
`trackingPolicy === CONSENT_TO_IDENTIFY && !consent` it stores the deferred
identity (overwriting), invokes the callback synchronously if provided, and
returns without enqueueing; otherwise it appends one closure to the queue. -/
def identify (ctx : Ctx) (st : FacadeState) (userId : String) (traits : Traits)
    (callback : Option Callback) : FacadeState × List Event :=
  let extendedTraits := injectPrezlyMeta ctx traits
  if ctx.trackingPolicy = TrackingPolicy.CONSENT_TO_IDENTIFY ∧ ctx.consent = false then
    ({ st with deferredIdentity := some { userId := userId, traits := some extendedTraits } },
      Event.storageSet { userId := userId, traits := some extendedTraits } ::
        (match callback with
          | some cb => [Event.callbackInvoked cb]
          | none => []))
  else
    ({ st with
        queue := st.queue ++
          [PendingCall.identifyCall userId extendedTraits ctx.consent callback] },
      [])

/-- `alias(userId, previousId)`: always enqueues; no consent gating. -/
def aliasOp (ctx : Ctx) (st : FacadeState) (userId : String) (previousId : String) :
    FacadeState × List Event :=
  ({ st with queue := st.queue ++ [PendingCall.aliasCall userId previousId ctx.consent] },
    [])

/-- `page(category?, name?, properties = {}, callback?)`: enriches the
properties and enqueues. -/
def page (ctx : Ctx) (st : FacadeState) (category : Option String) (name : Option String)
    (properties : Traits) (callback : Option Callback) : FacadeState × List Event :=
  let extendedProperties := injectPrezlyMeta ctx properties
  ({ st with
      queue := st.queue ++
        [PendingCall.pageCall category name extendedProperties ctx.consent callback] },
    [])

/-- `track(event, properties = {}, callback?)`: enriches the properties and
enqueues. -/
def track (ctx : Ctx) (st : FacadeState) (event : String) (properties : Traits)
    (callback : Option Callback) : FacadeState × List Event :=
  let extendedProperties := injectPrezlyMeta ctx properties
  ({ st with
      queue := st.queue ++
        [PendingCall.trackCall event extendedProperties ctx.consent callback] },
    [])

/-- Reading `user().id()`: proxies to the client's `user()` when the client and
its `user` capability exist, otherwise the stub's `id()` yields `null`. -/
def readUserId (analytics : Option Client) : Option String :=
  match analytics with
  | some c => if c.hasUser then c.userId else none
  | none => none

/-- Writing `user().id(null)`: erases the client-local user id when the client
and its `user` capability exist; on the stub this is a no-op. -/
def eraseUserId (analytics : Option Client) : Option Client :=
  match analytics with
  | some c => if c.hasUser then some { c with userId := none } else some c
  | none => none

/-- Result of invoking one queued closure: the events it produced, or an
exception escaping the closure. -/
inductive ExecResult where
  | ok (events : List Event)
  | exn
  deriving DecidableEq, Repr

/-- Executing one queued closure at drain time.  The closure reads
`analyticsRef.current` (the `analytics` parameter) *now*; absence of the client
or of the specific capability is a silent no-op.  `buildOptions()` runs now,
reading the global `navigator.userAgent` (and module `version`) now, but with
the enqueue-time `consent` it captured. -/
def execPendingCall (drain : Ctx) (analytics : Option Client) (pc : PendingCall) :
    ExecResult :=
  match analytics with
  | none => .ok []
  | some c =>
    match pc with
    | .identifyCall userId traits consentAtEnqueue cb =>
      if c.hasIdentify then
        if c.throwsOnInvoke then .exn
        else .ok [Event.client (.identify userId traits
          (buildOptions consentAtEnqueue drain.userAgent drain.version) cb)]
      else .ok []
    | .aliasCall userId previousId consentAtEnqueue =>
      if c.hasAlias then
        if c.throwsOnInvoke then .exn
        else .ok [Event.client (.alias userId previousId
          (buildOptions consentAtEnqueue drain.userAgent drain.version))]
      else .ok []
    | .pageCall category name properties consentAtEnqueue cb =>
      if c.hasPage then
        if c.throwsOnInvoke then .exn
        else .ok [Event.client (.page category name properties
          (buildOptions consentAtEnqueue drain.userAgent drain.version) cb)]
      else .ok []
    | .trackCall event properties consentAtEnqueue cb =>
      if c.hasTrack then
        if c.throwsOnInvoke then .exn
        else .ok [Event.client (.track event properties
          (buildOptions consentAtEnqueue drain.userAgent drain.version) cb)]
      else .ok []

/-- The drain effect: `if (analytics && firstInQueue) { firstInQueue(); removeFromQueue(); }`.
One queued call per readiness/queue-change tick, invoked before it is removed;
if the invocation throws, the effect aborts before `removeFromQueue()`, so the
entry stays at the head of the queue. -/
def drainStep (ctx : Ctx) (st : FacadeState) : FacadeState × List Event :=
  match st.analytics, st.queue with
  | some c, pc :: rest =>
    match execPendingCall ctx (some c) pc with
    | .ok evs => ({ st with queue := rest }, evs)
    | .exn => (st, [])
  | _, _ => (st, [])

/-- The consent effect.  Consent given: replay a stored deferred identity
through `identify` and clear the slot.  Consent absent: read `user().id()`,
persist a truthy id as a deferred identity (no `traits` key), then call
`user().id(null)` unconditionally. -/
def consentEffect (ctx : Ctx) (st : FacadeState) : FacadeState × List Event :=
  if ctx.consent then
    match st.deferredIdentity with
    | some d =>
      let res := identify ctx st d.userId (d.traits.getD emptyTraits) none
      ({ res.1 with deferredIdentity := none }, res.2 ++ [Event.storageRemove])
    | none => (st, [])
  else
    let id := readUserId st.analytics
    let st1 :=
      match id with
      | some s =>
        if s = "" then st
        else { st with deferredIdentity := some { userId := s, traits := none } }
      | none => st
    let evs1 :=
      match id with
      | some s =>
        if s = "" then []
        else [Event.storageSet { userId := s, traits := none }]
      | none => []
    ({ st1 with analytics := eraseUserId st1.analytics }, evs1 ++ [Event.eraseUserId])

/-- The record returned by the hook when `isEnabled` is false replaces the four
tracking operations with `() => {}`; these façade-level wrappers model the
operation a UI caller actually gets. -/
def facadeIdentify (ctx : Ctx) (st : FacadeState) (userId : String) (traits : Traits)
    (callback : Option Callback) : FacadeState × List Event :=
  if ctx.isEnabled then identify ctx st userId traits callback else (st, [])

/-- Façade-level `alias` (no-op when disabled). -/
def facadeAlias (ctx : Ctx) (st : FacadeState) (userId : String) (previousId : String) :
    FacadeState × List Event :=
  if ctx.isEnabled then aliasOp ctx st userId previousId else (st, [])

/-- Façade-level `page` (no-op when disabled). -/
def facadePage (ctx : Ctx) (st : FacadeState) (category : Option String)
    (name : Option String) (properties : Traits) (callback : Option Callback) :
    FacadeState × List Event :=
  if ctx.isEnabled then page ctx st category name properties callback else (st, [])

/-- Façade-level `track` (no-op when disabled). -/
def facadeTrack (ctx : Ctx) (st : FacadeState) (event : String) (properties : Traits)
    (callback : Option Callback) : FacadeState × List Event :=
  if ctx.isEnabled then track ctx st event properties callback else (st, [])

/-- Façade-level `user()`: identical in the enabled and disabled return records
(`user` is returned unchanged in both branches); reading its `id()` is
`readUserId`. -/
def facadeUserId (ctx : Ctx) (st : FacadeState) : Option String :=
  if ctx.isEnabled then readUserId st.analytics else readUserId st.analytics

/-- A sequence of `identify` calls applied in order (state after the fold). -/
def identifySeq (ctx : Ctx) (st : FacadeState) :
    List (String × Traits × Option Callback) → FacadeState
  | [] => st
  | c :: rest => identifySeq ctx (identify ctx st c.1 c.2.1 c.2.2).1 rest

/-- One façade-level tracking call of the kinds that enqueue work
(`identify` only with the consent gate open; `track`; `page`). -/
inductive FacadeCall where
  | callIdentify (userId : String) (traits : Traits) (cb : Option Callback)
  | callPage (category : Option String) (name : Option String) (properties : Traits)
      (cb : Option Callback)
  | callTrack (event : String) (properties : Traits) (cb : Option Callback)
  deriving DecidableEq, Repr

/-- Dispatch one façade call to the corresponding operation. -/
def applyCall (ctx : Ctx) (st : FacadeState) : FacadeCall → FacadeState × List Event
  | .callIdentify uid tr cb => identify ctx st uid tr cb
  | .callPage cat nm pr cb => page ctx st cat nm pr cb
  | .callTrack ev pr cb => track ctx st ev pr cb

/-- A sequence of façade calls applied in order (state after the fold). -/
def applyCalls (ctx : Ctx) (st : FacadeState) : List FacadeCall → FacadeState
  | [] => st
  | fc :: rest => applyCalls ctx (applyCall ctx st fc).1 rest

/-- The queue entry an (un-gated) façade call creates: the fully-built
arguments plus the enqueue-time consent captured through `buildOptions`. -/
def pendingOf (ctx : Ctx) : FacadeCall → PendingCall
  | .callIdentify uid tr cb => .identifyCall uid (injectPrezlyMeta ctx tr) ctx.consent cb
  | .callPage cat nm pr cb => .pageCall cat nm (injectPrezlyMeta ctx pr) ctx.consent cb
  | .callTrack ev pr cb => .trackCall ev (injectPrezlyMeta ctx pr) ctx.consent cb

/-- The client invocation a queued closure produces when the client has the
required capability: options are built at drain time (drain-time user agent)
from the enqueue-time consent the closure captured. -/
def invocationOf (drain : Ctx) : PendingCall → ClientInvocation
  | .identifyCall uid tr b cb => .identify uid tr (buildOptions b drain.userAgent drain.version) cb
  | .aliasCall uid prev b => .alias uid prev (buildOptions b drain.userAgent drain.version)
  | .pageCall cat nm pr b cb => .page cat nm pr (buildOptions b drain.userAgent drain.version) cb
  | .trackCall ev pr b cb => .track ev pr (buildOptions b drain.userAgent drain.version) cb

/-- `m` successive drain ticks (each tick runs the drain effect once),
collecting the emitted events in order. -/
def drainSteps (ctx : Ctx) (st : FacadeState) : Nat → FacadeState × List Event
  | 0 => (st, [])
  | n + 1 =>
    let r := drainStep ctx st
    let r2 := drainSteps ctx r.1 n
    (r2.1, r.2 ++ r2.2)

/-! ### Concrete contexts and states used by witnesses -/

/-- A context whose consent gate for `identify` is closed:
`trackingPolicy = CONSENT_TO_IDENTIFY`, `consent = false`. -/
def ctxGate : Ctx :=
  { consent := false, isEnabled := true, newsroomUuid := "nsid", storyUuid := none
    trackingPolicy := TrackingPolicy.CONSENT_TO_IDENTIFY, userAgent := "UA/1", version := "1.0" }

/-- A context with the `DEFAULT` policy and consent granted. -/
def ctxOpen : Ctx :=
  { consent := true, isEnabled := true, newsroomUuid := "nsid", storyUuid := none
    trackingPolicy := TrackingPolicy.DEFAULT, userAgent := "UA/1", version := "1.0" }

/-- The pristine façade state: empty queue, no deferred identity, no client. -/
def st0 : FacadeState := { queue := [], deferredIdentity := none, analytics := none }

/-- A fully-capable client that never throws and has no local user id. -/
def fullClient : Client :=
  { hasIdentify := true, hasAlias := true, hasPage := true, hasTrack := true
    hasUser := true, userId := none, throwsOnInvoke := false }

/-- A fully-capable client whose tracking methods throw when invoked. -/
def throwingClient : Client := { fullClient with throwsOnInvoke := true }

/-- Reading `user().id()` right after `user().id(null)` always yields `null`:
either the capability exists and the id was just erased, or the stub answers. -/
theorem readUserId_eraseUserId (a : Option Client) : readUserId (eraseUserId a) = none := by
  cases a with
  | none => rfl
  | some c => by_cases h : c.hasUser <;> simp [readUserId, eraseUserId, h]

/-- With the consent gate open, every façade call appends exactly one entry at
the tail of the queue and emits no events. -/
theorem applyCall_gate_open (ctx : Ctx) (st : FacadeState) (fc : FacadeCall)
    (hgate : ¬(ctx.trackingPolicy = TrackingPolicy.CONSENT_TO_IDENTIFY
      ∧ ctx.consent = false)) :
    applyCall ctx st fc = ({ st with queue := st.queue ++ [pendingOf ctx fc] }, []) := by
  cases fc with
  | callIdentify uid tr cb =>
    simp only [applyCall, identify, pendingOf]
    rw [if_neg hgate]
  | callPage cat nm pr cb => simp [applyCall, page, pendingOf]
  | callTrack ev pr cb => simp [applyCall, track, pendingOf]

/-- With the consent gate open, a sequence of façade calls appends its entries
in order at the tail of the queue and changes nothing else. -/
theorem applyCalls_enqueues (ctx : Ctx) (calls : List FacadeCall)
    (hgate : ¬(ctx.trackingPolicy = TrackingPolicy.CONSENT_TO_IDENTIFY
      ∧ ctx.consent = false)) :
    ∀ st : FacadeState,
      applyCalls ctx st calls = { st with queue := st.queue ++ calls.map (pendingOf ctx) } := by
  induction calls with
  | nil => intro st; simp [applyCalls]
  | cons fc rest ih =>
    intro st
    simp only [applyCalls, applyCall_gate_open ctx st fc hgate]
    rw [ih]
    simp

/-- On a fully-capable, non-throwing client every queued closure produces
exactly its one client invocation. -/
theorem execPendingCall_ok (ctx : Ctx) (c : Client) (pc : PendingCall)
    (hci : c.hasIdentify = true) (hca : c.hasAlias = true) (hcp : c.hasPage = true)
    (hct : c.hasTrack = true) (hth : c.throwsOnInvoke = false) :
    execPendingCall ctx (some c) pc = .ok [Event.client (invocationOf ctx pc)] := by
  cases pc <;> simp [execPendingCall, invocationOf, hci, hca, hcp, hct, hth]

/-- With a fully-capable non-throwing client present, `m` drain ticks fire the
first `m` queued closures in order (one per tick) and drop them. -/
theorem drainSteps_take_drop (ctx : Ctx) (c : Client)
    (hci : c.hasIdentify = true) (hca : c.hasAlias = true) (hcp : c.hasPage = true)
    (hct : c.hasTrack = true) (hth : c.throwsOnInvoke = false) :
    ∀ (m : Nat) (q : List PendingCall) (d : Option DeferredIdentity),
      drainSteps ctx ⟨q, d, some c⟩ m =
        (⟨q.drop m, d, some c⟩,
          (q.take m).map fun pc => Event.client (invocationOf ctx pc)) := by
  intro m
  induction m with
  | zero => intro q d; simp [drainSteps]
  | succ n ih =>
    intro q d
    cases q with
    | nil => simp [drainSteps, drainStep, ih]
    | cons pc rest =>
      have hstep : drainStep ctx ⟨pc :: rest, d, some c⟩ =
          (⟨rest, d, some c⟩, [Event.client (invocationOf ctx pc)]) := by
        simp [drainStep, execPendingCall_ok ctx c pc hci hca hcp hct hth]
      simp only [drainSteps, hstep]
      rw [ih rest d]
      simp

/-- One drain tick with a client present and a non-empty queue: the head is
invoked first; only when the invocation returns normally is the head removed,
while a throw leaves the whole state (queue included) untouched. -/
theorem drainStep_eq (ctx : Ctx) (st : FacadeState) (c : Client) (pc : PendingCall)
    (rest : List PendingCall)
    (ha : st.analytics = some c) (hq : st.queue = pc :: rest) :
    drainStep ctx st =
      (match execPendingCall ctx (some c) pc with
        | .ok evs => ({ st with queue := rest }, evs)
        | .exn => (st, [])) := by
  cases st with
  | mk q d a =>
    simp only at ha hq
    subst ha
    subst hq
    cases hres : execPendingCall ctx (some c) pc <;> simp [drainStep, hres]

/-- Whenever consent is false and the client reports a truthy (non-null,
non-empty) user id, the consent effect persists it as a deferred identity and
then erases the client-local id. -/
theorem consentEffect_false_capture (ctx : Ctx) (st : FacadeState) (s : String)
    (hc : ctx.consent = false) (hid : readUserId st.analytics = some s) (hs : s ≠ "") :
    consentEffect ctx st =
      ({ st with deferredIdentity := some ⟨s, none⟩, analytics := eraseUserId st.analytics },
        [Event.storageSet ⟨s, none⟩, Event.eraseUserId]) := by
  simp [consentEffect, hc, hid, hs]

/-- Whenever consent is false and the client reports no user id, the consent
effect only performs the (vacuous) id-erase call. -/
theorem consentEffect_false_noid (ctx : Ctx) (st : FacadeState)
    (hc : ctx.consent = false) (hid : readUserId st.analytics = none) :
    consentEffect ctx st =
      ({ st with analytics := eraseUserId st.analytics }, [Event.eraseUserId]) := by
  simp [consentEffect, hc, hid]

end Analytics

namespace Analytics

/-! ### Claims -/

/-- Claim C7. For every invocation of `buildOptions`, the returned options object
contains a `userAgent` field if and only if consent is true; the library
name/version stamp is included unconditionally. -/
theorem C7_buildOptions_userAgent_iff_consent (consent : Bool) (ua ver : String) :
    ((buildOptions consent ua ver).userAgent.isSome = true ↔ consent = true)
    ∧ (buildOptions consent ua ver).libraryName = "@prezly/analytics-next"
    ∧ (buildOptions consent ua ver).libraryVersion = ver := by
  refine ⟨?_, rfl, rfl⟩
  cases consent <;> simp [buildOptions]

/-- Claim C1. With `trackingPolicy = CONSENT_TO_IDENTIFY` and `consent = false`,
`identify(userId, traits, callback?)` sets the deferred-identity slot to
`{userId, traits: enriched}` (overwriting any previous value), leaves the queue
untouched, invokes the callback synchronously if provided, and emits no client
call; after any sequence of such calls exactly one deferred identity remains —
the latest. -/
theorem C1_identify_suppressed_defers (ctx : Ctx) (st : FacadeState) (uid : String)
    (tr : Traits) (cb : Option Callback)
    (hp : ctx.trackingPolicy = TrackingPolicy.CONSENT_TO_IDENTIFY)
    (hc : ctx.consent = false) :
    identify ctx st uid tr cb =
      ({ st with deferredIdentity := some ⟨uid, some (injectPrezlyMeta ctx tr)⟩ },
        Event.storageSet ⟨uid, some (injectPrezlyMeta ctx tr)⟩ ::
          (match cb with
            | some k => [Event.callbackInvoked k]
            | none => []))
    ∧ (∀ e ∈ (identify ctx st uid tr cb).2, ∀ inv, e ≠ Event.client inv)
    ∧ ∀ calls : List (String × Traits × Option Callback),
        identifySeq ctx st (calls ++ [(uid, tr, cb)]) =
          { st with deferredIdentity := some ⟨uid, some (injectPrezlyMeta ctx tr)⟩ } := by
  refine ⟨by simp [identify, hp, hc], ?_, ?_⟩
  · intro e he inv
    simp only [identify, hp, hc] at he
    simp at he
    cases cb <;> simp at he <;> rcases he with rfl | rfl <;> simp
  · intro calls
    induction calls generalizing st with
    | nil => simp [identifySeq, identify, hp, hc]
    | cons c rest ih =>
      simp only [List.cons_append, identifySeq]
      by_cases hgate :
          ctx.trackingPolicy = TrackingPolicy.CONSENT_TO_IDENTIFY ∧ ctx.consent = false
      · simp only [identify, hp, hc]
        simp
        rw [ih]
      · exact absurd ⟨hp, hc⟩ hgate

/-- Witness for **C1** at a concrete input. -/
theorem C1_witness :
    identify ctxGate st0 "u1" emptyTraits (some 7) =
      ({ st0 with
          deferredIdentity := some ⟨"u1", some (injectPrezlyMeta ctxGate emptyTraits)⟩ },
        [Event.storageSet ⟨"u1", some (injectPrezlyMeta ctxGate emptyTraits)⟩,
          Event.callbackInvoked 7]) :=
  (C1_identify_suppressed_defers ctxGate st0 "u1" emptyTraits (some 7) rfl rfl).1

/-- Claim C8. When the façade's `isEnabled` flag is false, `track`, `page`,
`alias`, `identify` have zero observable side effects (state unchanged, no
events), while `user()` behaves exactly as in enabled mode. -/
theorem C8_disabled_noop (ctx : Ctx) (st : FacadeState) (uid prev ev : String)
    (cat nm : Option String) (tr : Traits) (cb : Option Callback)
    (hdis : ctx.isEnabled = false) :
    facadeIdentify ctx st uid tr cb = (st, [])
    ∧ facadeAlias ctx st uid prev = (st, [])
    ∧ facadePage ctx st cat nm tr cb = (st, [])
    ∧ facadeTrack ctx st ev tr cb = (st, [])
    ∧ facadeUserId ctx st = readUserId st.analytics := by
  refine ⟨?_, ?_, ?_, ?_, ?_⟩ <;>
    simp [facadeIdentify, facadeAlias, facadePage, facadeTrack, facadeUserId, hdis]

/-- Claim C5. When the consent effect runs with consent true and a deferred
identity `d` stored, `identify` is invoked exactly once with the stored
arguments (enqueueing one identify call built from them — the gate now passes),
and the deferred slot is empty afterward; a subsequent run with the slot empty
does nothing, so no second replay occurs. -/
theorem C5_consent_true_replays (ctx : Ctx) (st : FacadeState) (d : DeferredIdentity)
    (hc : ctx.consent = true) (hd : st.deferredIdentity = some d) :
    consentEffect ctx st =
      ({ st with
          queue := st.queue ++
            [PendingCall.identifyCall d.userId
              (injectPrezlyMeta ctx (d.traits.getD emptyTraits)) ctx.consent none]
          deferredIdentity := none },
        [Event.storageRemove])
    ∧ consentEffect ctx { st with deferredIdentity := none } =
        ({ st with deferredIdentity := none }, []) := by
  constructor
  · simp [consentEffect, hc, hd, identify]
  · simp [consentEffect, hc]

/-- Witness for **C5** at a concrete input. -/
theorem C5_witness :
    consentEffect ctxOpen { st0 with deferredIdentity := some ⟨"u1", none⟩ } =
      ({ { st0 with deferredIdentity := some (⟨"u1", none⟩ : DeferredIdentity) } with
          queue :=
            ({ st0 with
                deferredIdentity := some (⟨"u1", none⟩ : DeferredIdentity) } :
              FacadeState).queue ++
            [PendingCall.identifyCall "u1" (injectPrezlyMeta ctxOpen emptyTraits)
              ctxOpen.consent none]
          deferredIdentity := none },
        [Event.storageRemove])
    ∧ consentEffect ctxOpen
        { { st0 with deferredIdentity := some (⟨"u1", none⟩ : DeferredIdentity) } with
            deferredIdentity := none } =
      ({ { st0 with deferredIdentity := some (⟨"u1", none⟩ : DeferredIdentity) } with
          deferredIdentity := none }, []) :=
  C5_consent_true_replays ctxOpen { st0 with deferredIdentity := some ⟨"u1", none⟩ }
    ⟨"u1", none⟩ rfl rfl

/-- Claim C6, counterexample. The claim says a *non-null* user id is always
persisted when consent is false, but the source guards with JS truthiness
(`if (id)`): a client reporting the non-null empty-string id leaves the
deferred slot untouched. -/
theorem C6_counterexample :
    readUserId (some { fullClient with userId := some "" }) = some ""
    ∧ (consentEffect { ctxOpen with consent := false }
        { st0 with analytics := some { fullClient with userId := some "" } }).1.deferredIdentity
        = none := by
  exact ⟨rfl, rfl⟩

/-- Claim C6 as amended. Whenever consent is false the effect reads the current
user id via `user().id()`; if that id is non-null *and non-empty* it persists a
deferred identity for it (no stored traits, replayed as empty), then calls
`user().id(null)`, so that reading the client's id afterwards yields null. -/
theorem C6_consent_false_captures_id (ctx : Ctx) (st : FacadeState) (s : String)
    (hc : ctx.consent = false) (hid : readUserId st.analytics = some s) (hs : s ≠ "") :
    consentEffect ctx st =
      ({ st with deferredIdentity := some ⟨s, none⟩, analytics := eraseUserId st.analytics },
        [Event.storageSet ⟨s, none⟩, Event.eraseUserId])
    ∧ readUserId (consentEffect ctx st).1.analytics = none := by
  have h1 : consentEffect ctx st =
      ({ st with deferredIdentity := some ⟨s, none⟩, analytics := eraseUserId st.analytics },
        [Event.storageSet ⟨s, none⟩, Event.eraseUserId]) := by
    simp [consentEffect, hc, hid, hs]
  exact ⟨h1, by rw [h1]; exact readUserId_eraseUserId st.analytics⟩

/-- Witness for **C6 (amended)** at a concrete input. -/
theorem C6_witness :
    consentEffect { ctxOpen with consent := false }
        { st0 with analytics := some { fullClient with userId := some "bob" } } =
      ({ { st0 with analytics := some { fullClient with userId := some "bob" } } with
          deferredIdentity := some ⟨"bob", none⟩
          analytics :=
            eraseUserId
              ({ st0 with
                  analytics := some { fullClient with userId := some "bob" } } :
                FacadeState).analytics },
        [Event.storageSet ⟨"bob", none⟩, Event.eraseUserId])
    ∧ readUserId
        (consentEffect { ctxOpen with consent := false }
          { st0 with
              analytics := some { fullClient with userId := some "bob" } }).1.analytics
        = none :=
  C6_consent_false_captures_id { ctxOpen with consent := false }
    { st0 with analytics := some { fullClient with userId := some "bob" } } "bob"
    rfl rfl (by decide)

/-- Witness for **C8** at a concrete input. -/
theorem C8_witness :
    facadeIdentify { ctxOpen with isEnabled := false } st0 "u1" emptyTraits none = (st0, [])
    ∧ facadeAlias { ctxOpen with isEnabled := false } st0 "u1" "u0" = (st0, [])
    ∧ facadePage { ctxOpen with isEnabled := false } st0 none none emptyTraits none = (st0, [])
    ∧ facadeTrack { ctxOpen with isEnabled := false } st0 "ev" emptyTraits none = (st0, [])
    ∧ facadeUserId { ctxOpen with isEnabled := false } st0 = readUserId st0.analytics :=
  C8_disabled_noop { ctxOpen with isEnabled := false } st0 "u1" "u0" "ev" none none
    emptyTraits none rfl

/-- Claim C2. A queue entry created by `identify`, `alias`, `page` or `track`
does not depend on the client reference at enqueue time (first group of
conjuncts), and a call enqueued while no client was present fires, at drain
time, against the client present then: with a capable client installed after
the enqueue, the drain tick emits the corresponding client invocation instead
of silently no-opping. -/
theorem C2_closure_reads_client_at_drain (ctx ctx2 : Ctx) (st : FacadeState)
    (a a' : Option Client) (c : Client) (uid prev ev : String) (cat nm : Option String)
    (tr : Traits) (cb : Option Callback)
    (hgate : ¬(ctx.trackingPolicy = TrackingPolicy.CONSENT_TO_IDENTIFY
      ∧ ctx.consent = false))
    (hq : st.queue = [])
    (hci : c.hasIdentify = true) (hca : c.hasAlias = true) (hcp : c.hasPage = true)
    (hct : c.hasTrack = true) (hth : c.throwsOnInvoke = false) :
    ((identify ctx { st with analytics := a } uid tr cb).1.queue
        = (identify ctx { st with analytics := a' } uid tr cb).1.queue
      ∧ (aliasOp ctx { st with analytics := a } uid prev).1.queue
        = (aliasOp ctx { st with analytics := a' } uid prev).1.queue
      ∧ (page ctx { st with analytics := a } cat nm tr cb).1.queue
        = (page ctx { st with analytics := a' } cat nm tr cb).1.queue
      ∧ (track ctx { st with analytics := a } ev tr cb).1.queue
        = (track ctx { st with analytics := a' } ev tr cb).1.queue)
    ∧ drainStep ctx2
        { (identify ctx { st with analytics := none } uid tr cb).1 with analytics := some c }
      = ({ st with queue := [], analytics := some c },
          [Event.client (ClientInvocation.identify uid (injectPrezlyMeta ctx tr)
            (buildOptions ctx.consent ctx2.userAgent ctx2.version) cb)])
    ∧ drainStep ctx2
        { (aliasOp ctx { st with analytics := none } uid prev).1 with analytics := some c }
      = ({ st with queue := [], analytics := some c },
          [Event.client (ClientInvocation.alias uid prev
            (buildOptions ctx.consent ctx2.userAgent ctx2.version))])
    ∧ drainStep ctx2
        { (page ctx { st with analytics := none } cat nm tr cb).1 with analytics := some c }
      = ({ st with queue := [], analytics := some c },
          [Event.client (ClientInvocation.page cat nm (injectPrezlyMeta ctx tr)
            (buildOptions ctx.consent ctx2.userAgent ctx2.version) cb)])
    ∧ drainStep ctx2
        { (track ctx { st with analytics := none } ev tr cb).1 with analytics := some c }
      = ({ st with queue := [], analytics := some c },
          [Event.client (ClientInvocation.track ev (injectPrezlyMeta ctx tr)
            (buildOptions ctx.consent ctx2.userAgent ctx2.version) cb)]) := by
  have hident : (identify ctx { st with analytics := none } uid tr cb).1 =
      { st with
          analytics := none
          queue := st.queue ++ [PendingCall.identifyCall uid (injectPrezlyMeta ctx tr)
            ctx.consent cb] } := by
    simp only [identify]
    rw [if_neg hgate]
  refine ⟨⟨?_, ?_, ?_, ?_⟩, ?_, ?_, ?_, ?_⟩
  · by_cases h : ctx.trackingPolicy = TrackingPolicy.CONSENT_TO_IDENTIFY
        ∧ ctx.consent = false <;>
      simp [identify, h]
  · simp [aliasOp]
  · simp [page]
  · simp [track]
  · rw [hident]
    simp [drainStep, execPendingCall, hq, hci, hth]
  · simp [aliasOp, drainStep, execPendingCall, hq, hca, hth]
  · simp [page, drainStep, execPendingCall, hq, hcp, hth]
  · simp [track, drainStep, execPendingCall, hq, hct, hth]

/-- Witness for C2 at a concrete input. -/
theorem C2_witness :
    drainStep ctxGate
        { (identify ctxOpen { st0 with analytics := none } "u" emptyTraits none).1 with
            analytics := some fullClient }
      = ({ st0 with queue := [], analytics := some fullClient },
          [Event.client (ClientInvocation.identify "u" (injectPrezlyMeta ctxOpen emptyTraits)
            (buildOptions ctxOpen.consent ctxGate.userAgent ctxGate.version) none)]) :=
  (C2_closure_reads_client_at_drain ctxOpen ctxGate st0 none (some fullClient) fullClient
    "u" "p" "e" none none emptyTraits none (by decide) rfl rfl rfl rfl rfl rfl).2.1

/-- Claim C3. Calls issued while no client is present are each enqueued, in
issue order, and nothing fires before a client exists; once a fully-capable,
non-throwing client is present, `m` drain ticks fire exactly the first `m`
queued calls — one per tick, each exactly once, in FIFO order — so after as
many ticks as entries every queued call has fired exactly once in the original
order. -/
theorem C3_queue_fifo_exactly_once (ctx : Ctx) (st : FacadeState)
    (calls : List FacadeCall) (c : Client) (m : Nat)
    (hgate : ¬(ctx.trackingPolicy = TrackingPolicy.CONSENT_TO_IDENTIFY
      ∧ ctx.consent = false))
    (hci : c.hasIdentify = true) (hca : c.hasAlias = true) (hcp : c.hasPage = true)
    (hct : c.hasTrack = true) (hth : c.throwsOnInvoke = false) :
    applyCalls ctx { st with analytics := none } calls =
      { st with analytics := none, queue := st.queue ++ calls.map (pendingOf ctx) }
    ∧ drainStep ctx { st with analytics := none } = ({ st with analytics := none }, [])
    ∧ drainSteps ctx
        ⟨st.queue ++ calls.map (pendingOf ctx), st.deferredIdentity, some c⟩ m =
      (⟨(st.queue ++ calls.map (pendingOf ctx)).drop m, st.deferredIdentity, some c⟩,
        ((st.queue ++ calls.map (pendingOf ctx)).take m).map
          fun pc => Event.client (invocationOf ctx pc)) := by
  refine ⟨?_, ?_, drainSteps_take_drop ctx c hci hca hcp hct hth m _ _⟩
  · rw [applyCalls_enqueues ctx calls hgate]
  · rfl

/-- Witness for C3 at a concrete input: two calls enqueued with no client, two
drain ticks fire them in order once a client exists. -/
theorem C3_witness :
    drainSteps ctxOpen
        ⟨[PendingCall.trackCall "e" (injectPrezlyMeta ctxOpen emptyTraits) true none,
            PendingCall.identifyCall "u" (injectPrezlyMeta ctxOpen emptyTraits) true (some 2)],
          none, some fullClient⟩ 2 =
      (⟨[], none, some fullClient⟩,
        [Event.client (ClientInvocation.track "e" (injectPrezlyMeta ctxOpen emptyTraits)
            (buildOptions true "UA/1" "1.0") none),
          Event.client (ClientInvocation.identify "u" (injectPrezlyMeta ctxOpen emptyTraits)
            (buildOptions true "UA/1" "1.0") (some 2))]) :=
  (C3_queue_fifo_exactly_once ctxOpen st0
    [FacadeCall.callTrack "e" emptyTraits none,
      FacadeCall.callIdentify "u" emptyTraits (some 2)]
    fullClient 2 (by decide) rfl rfl rfl rfl rfl).2.2

/-- Claim C4, counterexample. The claim asserts that when invoking the oldest
entry throws, the entry is still removed and never retried; in the source the
removal (`removeFromQueue()`) comes after the invocation (`firstInQueue()`),
so a throw skips it: after a drain tick on a throwing client the entry is
still at the head of the queue, to be invoked again by the next tick. -/
theorem C4_counterexample :
    execPendingCall ctxOpen (some throwingClient)
        (PendingCall.trackCall "ev" emptyTraits true (some 1)) = ExecResult.exn
    ∧ (drainStep ctxOpen
        { st0 with
            queue := [PendingCall.trackCall "ev" emptyTraits true (some 1)]
            analytics := some throwingClient }).1.queue
      = [PendingCall.trackCall "ev" emptyTraits true (some 1)] :=
  ⟨rfl, rfl⟩

/-- Claim C4 as amended. In every drain step with a client present the oldest
entry is invoked first and removed only afterwards: when the invocation
returns normally (even as a capability-missing no-op) the entry is removed and
its events emitted, but when the invocation throws the removal is skipped —
the queue, entry still at its head, is unchanged, so the entry is invoked
again on a later drain step. -/
theorem C4_drain_invokes_then_removes (ctx : Ctx) (st : FacadeState) (c : Client)
    (pc : PendingCall) (rest : List PendingCall)
    (ha : st.analytics = some c) (hq : st.queue = pc :: rest) :
    drainStep ctx st =
      (match execPendingCall ctx (some c) pc with
        | .ok evs => ({ st with queue := rest }, evs)
        | .exn => (st, [])) :=
  drainStep_eq ctx st c pc rest ha hq

/-- Witness for C4 at a concrete input: a throwing client leaves the state
untouched. -/
theorem C4_witness :
    drainStep ctxOpen
        { st0 with
            queue := [PendingCall.pageCall none none emptyTraits true none]
            analytics := some throwingClient }
      = ({ st0 with
            queue := [PendingCall.pageCall none none emptyTraits true none]
            analytics := some throwingClient }, []) :=
  C4_drain_invokes_then_removes ctxOpen
    { st0 with
        queue := [PendingCall.pageCall none none emptyTraits true none]
        analytics := some throwingClient }
    throwingClient (PendingCall.pageCall none none emptyTraits true none) [] rfl rfl

/-- Claim C9. The options passed to the client by a queued closure are built
from the consent value that held at enqueue time: `identify`, `page` and
`track` store the enqueue-time consent in the queue entry they create, and
executing such an entry under any later context `ctx2` yields options whose
userAgent presence equals that captured consent (the userAgent string itself
being read at drain time), regardless of `ctx2.consent`. -/
theorem C9_options_capture_enqueue_consent (ctx ctx2 : Ctx) (st : FacadeState)
    (c : Client) (uid ev : String) (cat nm : Option String) (tr : Traits)
    (cb : Option Callback)
    (hgate : ¬(ctx.trackingPolicy = TrackingPolicy.CONSENT_TO_IDENTIFY
      ∧ ctx.consent = false))
    (hci : c.hasIdentify = true) (hcp : c.hasPage = true) (hct : c.hasTrack = true)
    (hth : c.throwsOnInvoke = false) :
    (identify ctx st uid tr cb).1.queue
      = st.queue ++ [PendingCall.identifyCall uid (injectPrezlyMeta ctx tr) ctx.consent cb]
    ∧ (page ctx st cat nm tr cb).1.queue
      = st.queue ++ [PendingCall.pageCall cat nm (injectPrezlyMeta ctx tr) ctx.consent cb]
    ∧ (track ctx st ev tr cb).1.queue
      = st.queue ++ [PendingCall.trackCall ev (injectPrezlyMeta ctx tr) ctx.consent cb]
    ∧ execPendingCall ctx2 (some c)
        (PendingCall.identifyCall uid (injectPrezlyMeta ctx tr) ctx.consent cb)
      = .ok [Event.client (ClientInvocation.identify uid (injectPrezlyMeta ctx tr)
          (buildOptions ctx.consent ctx2.userAgent ctx2.version) cb)]
    ∧ execPendingCall ctx2 (some c)
        (PendingCall.pageCall cat nm (injectPrezlyMeta ctx tr) ctx.consent cb)
      = .ok [Event.client (ClientInvocation.page cat nm (injectPrezlyMeta ctx tr)
          (buildOptions ctx.consent ctx2.userAgent ctx2.version) cb)]
    ∧ execPendingCall ctx2 (some c)
        (PendingCall.trackCall ev (injectPrezlyMeta ctx tr) ctx.consent cb)
      = .ok [Event.client (ClientInvocation.track ev (injectPrezlyMeta ctx tr)
          (buildOptions ctx.consent ctx2.userAgent ctx2.version) cb)]
    ∧ (buildOptions ctx.consent ctx2.userAgent ctx2.version).userAgent.isSome
      = ctx.consent := by
  refine ⟨?_, ?_, ?_, ?_, ?_, ?_, ?_⟩
  · simp only [identify]
    rw [if_neg hgate]
  · simp [page]
  · simp [track]
  · simp [execPendingCall, hci, hth]
  · simp [execPendingCall, hcp, hth]
  · simp [execPendingCall, hct, hth]
  · cases h : ctx.consent <;> simp [buildOptions, h]

/-- Witness for C9 at a concrete input: enqueued with consent granted, drained
under a consent-revoked context, the options still carry the user agent. -/
theorem C9_witness :
    execPendingCall ctxGate (some fullClient)
        (PendingCall.trackCall "e" (injectPrezlyMeta ctxOpen emptyTraits)
          ctxOpen.consent none)
      = .ok [Event.client (ClientInvocation.track "e" (injectPrezlyMeta ctxOpen emptyTraits)
          (buildOptions ctxOpen.consent ctxGate.userAgent ctxGate.version) none)] :=
  (C9_options_capture_enqueue_consent ctxOpen ctxGate st0 fullClient "u" "e" none none
    emptyTraits none (by decide) rfl rfl rfl rfl).2.2.2.2.2.1

/-- Claim C10, counterexample. The claim asserts that whenever consent is
false a non-null id is written to the deferred-identity store even when the
façade is disabled; the source guards the write with JS truthiness (`if (id)`),
so with the non-null empty-string id nothing is written (the erase call still
happens). -/
theorem C10_counterexample :
    readUserId (some { fullClient with userId := some "" }) = some ""
    ∧ (consentEffect { ctxOpen with consent := false, isEnabled := false }
        { st0 with analytics := some { fullClient with userId := some "" } }).1.deferredIdentity
      = none :=
  ⟨rfl, rfl⟩

/-- Claim C10 as amended. The consent-change reaction and the queue-drain step
do not consult the enabled flag at all: with consent false they read the user
id, persist a truthy (non-null, non-empty) id as a deferred identity, and call
`user().id(null)` unconditionally — the erase event is emitted last even when
the current id is already null — and a pending queued call is still drained
when a client is present, all identically for either value of `isEnabled`. -/
theorem C10_effects_run_regardless_of_enabled (ctx : Ctx) (st : FacadeState) (b : Bool)
    (c : Client) (pc : PendingCall) (rest : List PendingCall) (evs : List Event)
    (s : String)
    (hc : ctx.consent = false)
    (hid : readUserId st.analytics = some s) (hs : s ≠ "")
    (hq : st.queue = pc :: rest) (ha : st.analytics = some c)
    (hex : execPendingCall ctx (some c) pc = ExecResult.ok evs) :
    consentEffect { ctx with isEnabled := b } st = consentEffect ctx st
    ∧ drainStep { ctx with isEnabled := b } st = drainStep ctx st
    ∧ (consentEffect ctx st).1.deferredIdentity = some ⟨s, none⟩
    ∧ (consentEffect ctx st).2.getLast? = some Event.eraseUserId
    ∧ consentEffect ctx { st with analytics := none }
      = ({ st with analytics := none }, [Event.eraseUserId])
    ∧ drainStep { ctx with isEnabled := b } st = ({ st with queue := rest }, evs) := by
  have hcap := consentEffect_false_capture ctx st s hc hid hs
  have henb : consentEffect { ctx with isEnabled := b } st = consentEffect ctx st := rfl
  have hdrb : drainStep { ctx with isEnabled := b } st = drainStep ctx st := rfl
  refine ⟨henb, hdrb, ?_, ?_, ?_, ?_⟩
  · rw [hcap]
  · rw [hcap]
    rfl
  · rw [consentEffect_false_noid ctx { st with analytics := none } hc rfl]
    simp [eraseUserId]
  · rw [hdrb, drainStep_eq ctx st c pc rest ha hq, hex]

/-- Witness for C10 at a concrete input. -/
theorem C10_witness :
    consentEffect
        { { ctxOpen with consent := false } with isEnabled := false }
        { st0 with
            queue := [PendingCall.trackCall "e" emptyTraits true none]
            analytics := some { fullClient with userId := some "bob" } }
      = consentEffect { ctxOpen with consent := false }
        { st0 with
            queue := [PendingCall.trackCall "e" emptyTraits true none]
            analytics := some { fullClient with userId := some "bob" } }
    ∧ drainStep
        { { ctxOpen with consent := false } with isEnabled := false }
        { st0 with
            queue := [PendingCall.trackCall "e" emptyTraits true none]
            analytics := some { fullClient with userId := some "bob" } }
      = drainStep { ctxOpen with consent := false }
        { st0 with
            queue := [PendingCall.trackCall "e" emptyTraits true none]
            analytics := some { fullClient with userId := some "bob" } }
    ∧ (consentEffect { ctxOpen with consent := false }
        { st0 with
            queue := [PendingCall.trackCall "e" emptyTraits true none]
            analytics := some { fullClient with userId := some "bob" } }).1.deferredIdentity
      = some ⟨"bob", none⟩
    ∧ (consentEffect { ctxOpen with consent := false }
        { st0 with
            queue := [PendingCall.trackCall "e" emptyTraits true none]
            analytics := some { fullClient with userId := some "bob" } }).2.getLast?
      = some Event.eraseUserId
    ∧ consentEffect { ctxOpen with consent := false }
        { { st0 with
              queue := [PendingCall.trackCall "e" emptyTraits true none]
              analytics := some { fullClient with userId := some "bob" } } with
            analytics := none }
      = ({ { st0 with
              queue := [PendingCall.trackCall "e" emptyTraits true none]
              analytics := some { fullClient with userId := some "bob" } } with
            analytics := none }, [Event.eraseUserId])
    ∧ drainStep
        { { ctxOpen with consent := false } with isEnabled := false }
        { st0 with
            queue := [PendingCall.trackCall "e" emptyTraits true none]
            analytics := some { fullClient with userId := some "bob" } }
      = ({ { st0 with
              queue := [PendingCall.trackCall "e" emptyTraits true none]
              analytics := some { fullClient with userId := some "bob" } } with
            queue := [] },
          [Event.client (ClientInvocation.track "e" emptyTraits
            (buildOptions true
              ({ ctxOpen with consent := false } : Ctx).userAgent
              ({ ctxOpen with consent := false } : Ctx).version) none)]) :=
  C10_effects_run_regardless_of_enabled { ctxOpen with consent := false }
    { st0 with
        queue := [PendingCall.trackCall "e" emptyTraits true none]
        analytics := some { fullClient with userId := some "bob" } }
    false { fullClient with userId := some "bob" }
    (PendingCall.trackCall "e" emptyTraits true none) []
    [Event.client (ClientInvocation.track "e" emptyTraits
      (buildOptions true
        ({ ctxOpen with consent := false } : Ctx).userAgent
        ({ ctxOpen with consent := false } : Ctx).version) none)]
    "bob" rfl rfl (by decide) rfl rfl rfl

end Analytics
